import Mathlib

/-!
# Verification of the `ragequit` graceful-shutdown coordinator

Shallow embedding of `src/lib.rs`.  The coordinator `Shutdown` holds an
`AtomicBool` flag `in_progress`, an `AtomicUsize` counter of live listeners,
and two `tokio::sync::Notify` channels (`notify_shutdown`, `notify_done`).

Modelling choices, faithful to the source and to tokio's documented
semantics:

* Machine integers: `counter` is a `usize`; `fetch_add`/`fetch_sub` wrap
  modulo `2 ^ 64` (the target's `usize` width), so `inc` and `dec` are
  written with explicit `% USIZE` arithmetic.
* `tokio::sync::Notify` (only `notify_waiters` and `notified()` are used by
  the source, never `notify_one`): `notify_waiters` wakes every `Notified`
  future created before the call and stores no permit for futures created
  after it.  A `Notified` future records, at creation, the number of
  `notify_waiters` calls so far and completes exactly when that number has
  since increased.  We model each `Notify` as the monotone count of its
  `notify_waiters` calls and each `Notified` future as the snapshot taken
  at creation.
* Polling a future reads coordinator fields and, when pending, registers a
  waker inside the `Notify`'s internal waiter list; it never writes
  `in_progress`, `counter`, or the notification-call counts, so polls leave
  the modelled `Shutdown` state unchanged.
-/

/-- Width of `usize` on the 64-bit targets the crate is built for. -/
def USIZE : Nat := 2 ^ 64

/-- Result of one `Future::poll` call. -/
inductive PollRes where
  | ready
  | pending
deriving DecidableEq

/-- `tokio::sync::Notify`, reduced to the use the crate makes of it: the
number of `notify_waiters` calls so far is all a `Notified` future can
observe.  A `Notify` is therefore a `Nat` and a `Notified` future the
snapshot of that `Nat` at its creation; `notifiedPoll` completes exactly
when `notify_waiters` has been called since the snapshot was taken. -/
def notifiedPoll (calls snapshot : Nat) : PollRes :=
  if snapshot < calls then .ready else .pending

/-- State of the `Shutdown` coordinator (`src/lib.rs`, lines 144-149):
`in_progress: AtomicBool`, `counter: AtomicUsize`, and the two `Notify`
channels represented by their `notify_waiters` call counts. -/
structure Shutdown where
  in_progress : Bool
  counter : Nat
  notify_shutdown : Nat
  notify_done : Nat
deriving DecidableEq

/-- `Shutdown::new` (line 153): flag clear, counter 0, fresh channels. -/
def Shutdown.new : Shutdown :=
  { in_progress := false, counter := 0, notify_shutdown := 0, notify_done := 0 }

/-- `Shutdown::inc` (line 163): `counter.fetch_add(1)`, wrapping. -/
def Shutdown.inc (s : Shutdown) : Shutdown :=
  { s with counter := (s.counter + 1) % USIZE }

/-- `Shutdown::dec` (lines 168-174): `prev = counter.fetch_sub(1)`
(wrapping), then `notify_done.notify_waiters()` exactly when
`in_progress && prev == 1`. -/
def Shutdown.dec (s : Shutdown) : Shutdown :=
  let prev := s.counter
  let s1 := { s with counter := (s.counter + (USIZE - 1)) % USIZE }
  if s1.in_progress && prev == 1 then
    { s1 with notify_done := s1.notify_done + 1 }
  else
    s1

/-- `Shutdown::quit` (lines 180-187): store `in_progress = true`, call
`notify_shutdown.notify_waiters()`, then call
`notify_done.notify_waiters()` exactly when the counter reads 0. -/
def Shutdown.quit (s : Shutdown) : Shutdown :=
  let s1 := { s with in_progress := true, notify_shutdown := s.notify_shutdown + 1 }
  if s1.counter == 0 then
    { s1 with notify_done := s1.notify_done + 1 }
  else
    s1

/-- `Shutdown::listen` (lines 191-197): `inc`, then build a
`ShutdownListener` holding `notify_shutdown.notified()`; the returned `Nat`
is that `Notified` future's creation snapshot. -/
def Shutdown.listen (s : Shutdown) : Shutdown × Nat :=
  (s.inc, s.notify_shutdown)

/-- `Shutdown::wait` (lines 202-207): build a `Wait` holding
`notify_done.notified()`.  Creating the `Notified` future only loads the
channel state, so the coordinator is returned unchanged; the `Nat` is the
`Notified` future's creation snapshot. -/
def Shutdown.wait (s : Shutdown) : Shutdown × Nat :=
  (s, s.notify_done)

/-- `ShutdownListener::is_in_progress` (lines 116-118): acquire-load of the
flag. -/
def ShutdownListener.is_in_progress (s : Shutdown) : Bool :=
  s.in_progress

/-- `<ShutdownListener as Future>::poll` (lines 125-131): eager
`is_in_progress` check, else poll the inner `Notified` future.  The second
component records whether the inner `Notified` future was polled (and so,
when pending, subscribed a waker). -/
def ShutdownListener.poll (s : Shutdown) (snapshot : Nat) : PollRes × Bool :=
  if ShutdownListener.is_in_progress s then (.ready, false)
  else (notifiedPoll s.notify_shutdown snapshot, true)

/-- `<ShutdownListener as PinnedDrop>::drop` (lines 137-139): every drop,
whether or not the listener was ever polled, runs `SHUTDOWN.dec()`. -/
def ShutdownListener.drop (s : Shutdown) : Shutdown :=
  s.dec

/-- `<Wait as Future>::poll` (lines 223-231): eager check of
`in_progress && counter == 0`, else poll the inner `Notified` future.  The
second component records whether the inner `Notified` future was polled. -/
def Wait.poll (s : Shutdown) (snapshot : Nat) : PollRes × Bool :=
  if s.in_progress && s.counter == 0 then (.ready, false)
  else (notifiedPoll s.notify_done snapshot, true)

/-! ## Traces of library operations

The public surface of the crate, as a set of state transformers on the
coordinator.  `poll` calls and `Wait` creation touch no coordinator field
(polling only reads fields and registers wakers inside a `Notify`), so
their transition is the identity; `Wait` has no `Drop` implementation, so
dropping an unresolved `Wait` is likewise invisible to the coordinator. -/

/-- One operation of the library against the global coordinator. -/
inductive Op where
  | listen
  | release
  | quit
  | pollListener (snapshot : Nat)
  | pollWait (snapshot : Nat)
  | mkWait
deriving DecidableEq

/-- Effect of one operation on the coordinator state, read off the source:
`listen` runs `inc`, dropping a listener runs `dec`, `quit` is `quit`;
the remaining operations leave every coordinator field unchanged. -/
def applyOp (s : Shutdown) : Op → Shutdown
  | .listen => (s.listen).1
  | .release => s.dec
  | .quit => s.quit
  | .pollListener _ => s
  | .pollWait _ => s
  | .mkWait => (s.wait).1

/-- Run a trace of operations left to right. -/
def execOps (t : List Op) (s : Shutdown) : Shutdown :=
  t.foldl applyOp s

/-- Number of `listen` calls in a trace. -/
def listens : List Op → Nat
  | [] => 0
  | .listen :: t => listens t + 1
  | _ :: t => listens t

/-- Number of listener drops in a trace. -/
def releases : List Op → Nat
  | [] => 0
  | .release :: t => releases t + 1
  | _ :: t => releases t

/-- `Valid k t`: starting from `k` live listener handles, the trace `t`
only ever drops a handle that is currently live (each handle created by
`listen` is released at most once, and only after its creation), and the
number of live handles always fits in a `usize`.  Both conditions hold of
every execution of the real library: a drop is a drop of an existing
handle, and each live handle occupies memory. -/
inductive Valid : Nat → List Op → Prop where
  | nil {k : Nat} (hk : k < USIZE) : Valid k []
  | listen {k : Nat} {t : List Op} (h : Valid (k + 1) t) : Valid k (Op.listen :: t)
  | release {k : Nat} {t : List Op} (hk : k + 1 < USIZE) (h : Valid k t) :
      Valid (k + 1) (Op.release :: t)
  | quit {k : Nat} {t : List Op} (h : Valid k t) : Valid k (Op.quit :: t)
  | pollListener {k : Nat} {t : List Op} (snapshot : Nat) (h : Valid k t) :
      Valid k (Op.pollListener snapshot :: t)
  | pollWait {k : Nat} {t : List Op} (snapshot : Nat) (h : Valid k t) :
      Valid k (Op.pollWait snapshot :: t)
  | mkWait {k : Nat} {t : List Op} (h : Valid k t) : Valid k (Op.mkWait :: t)

/-! ## Helper lemmas -/

lemma valid_lt {k : Nat} {t : List Op} (h : Valid k t) : k < USIZE := by
  induction h with
  | nil hk => exact hk
  | listen h ih => omega
  | release hk h ih => exact hk
  | quit h ih => exact ih
  | pollListener snapshot h ih => exact ih
  | pollWait snapshot h ih => exact ih
  | mkWait h ih => exact ih

lemma valid_take {k : Nat} {t : List Op} (h : Valid k t) :
    ∀ n, Valid k (t.take n) := by
  induction h with
  | nil hk => intro n; rw [List.take_nil]; exact Valid.nil hk
  | listen h ih =>
    intro n
    cases n with
    | zero => exact Valid.nil (by have := valid_lt h; omega)
    | succ m => exact Valid.listen (ih m)
  | release hk h ih =>
    intro n
    cases n with
    | zero => exact Valid.nil hk
    | succ m => exact Valid.release hk (ih m)
  | quit h ih =>
    intro n
    cases n with
    | zero => exact Valid.nil (valid_lt h)
    | succ m => exact Valid.quit (ih m)
  | pollListener snapshot h ih =>
    intro n
    cases n with
    | zero => exact Valid.nil (valid_lt h)
    | succ m => exact Valid.pollListener snapshot (ih m)
  | pollWait snapshot h ih =>
    intro n
    cases n with
    | zero => exact Valid.nil (valid_lt h)
    | succ m => exact Valid.pollWait snapshot (ih m)
  | mkWait h ih =>
    intro n
    cases n with
    | zero => exact Valid.nil (valid_lt h)
    | succ m => exact Valid.mkWait (ih m)

lemma inc_counter {s : Shutdown} (h : s.counter + 1 < USIZE) :
    (s.inc).counter = s.counter + 1 := by
  simp [Shutdown.inc, Nat.mod_eq_of_lt h]

lemma dec_counter {s : Shutdown} (h1 : 1 ≤ s.counter) (h2 : s.counter < USIZE) :
    (s.dec).counter = s.counter - 1 := by
  have husize : 1 ≤ USIZE := by norm_num [USIZE]
  have heq : s.counter + (USIZE - 1) = USIZE + (s.counter - 1) := by omega
  have hmod : (s.counter + (USIZE - 1)) % USIZE = s.counter - 1 := by
    rw [heq, Nat.add_mod_left, Nat.mod_eq_of_lt (by omega)]
  simp only [Shutdown.dec]
  split <;> simp [hmod]

lemma dec_in_progress (s : Shutdown) : (s.dec).in_progress = s.in_progress := by
  simp only [Shutdown.dec]
  split <;> rfl

lemma dec_notify_shutdown (s : Shutdown) :
    (s.dec).notify_shutdown = s.notify_shutdown := by
  simp only [Shutdown.dec]
  split <;> rfl

lemma quit_counter (s : Shutdown) : (s.quit).counter = s.counter := by
  simp only [Shutdown.quit]
  split <;> rfl

lemma quit_in_progress (s : Shutdown) : (s.quit).in_progress = true := by
  simp only [Shutdown.quit]
  split <;> rfl

lemma applyOp_in_progress {s : Shutdown} (op : Op)
    (h : s.in_progress = true) : (applyOp s op).in_progress = true := by
  cases op with
  | listen => simpa [applyOp, Shutdown.listen, Shutdown.inc] using h
  | release => rw [applyOp, dec_in_progress]; exact h
  | quit => exact quit_in_progress s
  | pollListener snapshot => exact h
  | pollWait snapshot => exact h
  | mkWait => exact h

lemma execOps_in_progress {s : Shutdown} (t : List Op)
    (h : s.in_progress = true) : (execOps t s).in_progress = true := by
  induction t generalizing s with
  | nil => exact h
  | cons op t ih => exact ih (applyOp_in_progress op h)

/-- In every state reachable from `Shutdown.new`, the shutdown channel has
been signaled only if the flag is set: `quit` is the sole caller of
`notify_shutdown.notify_waiters` and sets the flag first. -/
def ShutdownInv (s : Shutdown) : Prop :=
  0 < s.notify_shutdown → s.in_progress = true

lemma applyOp_inv {s : Shutdown} (op : Op) (h : ShutdownInv s) :
    ShutdownInv (applyOp s op) := by
  cases op with
  | listen =>
    intro hn
    simp only [applyOp, Shutdown.listen, Shutdown.inc] at hn ⊢
    exact h hn
  | release =>
    intro hn
    rw [applyOp, dec_notify_shutdown] at hn
    rw [applyOp, dec_in_progress]
    exact h hn
  | quit => intro _; exact quit_in_progress s
  | pollListener snapshot => exact h
  | pollWait snapshot => exact h
  | mkWait => exact h

lemma execOps_inv {s : Shutdown} (t : List Op) (h : ShutdownInv s) :
    ShutdownInv (execOps t s) := by
  induction t generalizing s with
  | nil => exact h
  | cons op t ih => exact ih (applyOp_inv op h)

lemma listens_append (a b : List Op) :
    listens (a ++ b) = listens a + listens b := by
  induction a with
  | nil => simp [listens]
  | cons op t ih => cases op <;> simp [listens, ih] <;> omega

lemma releases_append (a b : List Op) :
    releases (a ++ b) = releases a + releases b := by
  induction a with
  | nil => simp [releases]
  | cons op t ih => cases op <;> simp [releases, ih] <;> omega

lemma execOps_append (a b : List Op) (s : Shutdown) :
    execOps (a ++ b) s = execOps b (execOps a s) := by
  simp [execOps, List.foldl_append]

/-- Exact accounting for valid traces: the stored counter equals the true
number of live handles, which never underflows and never wraps. -/
lemma counter_exec {k0 : Nat} {t0 : List Op} (hv : Valid k0 t0) :
    ∀ s : Shutdown, s.counter = k0 →
      (execOps t0 s).counter = k0 + listens t0 - releases t0
      ∧ releases t0 ≤ k0 + listens t0
      ∧ k0 + listens t0 - releases t0 < USIZE := by
  induction hv with
  | @nil k hk =>
    intro s hs
    simp [execOps, listens, releases, hs, hk]
  | @listen k t h ih =>
    intro s hs
    have hlt : s.counter + 1 < USIZE := by rw [hs]; exact valid_lt h
    obtain ⟨h1, h2, h3⟩ := ih (s.listen).1 (by
      show s.inc.counter = k + 1
      rw [inc_counter hlt, hs])
    have hexec : execOps (Op.listen :: t) s = execOps t (s.listen).1 := rfl
    have e1 : listens (Op.listen :: t) = listens t + 1 := rfl
    have e2 : releases (Op.listen :: t) = releases t := rfl
    rw [hexec, e1, e2]
    exact ⟨by omega, by omega, by omega⟩
  | @release k t hk h ih =>
    intro s hs
    have hdec : s.dec.counter = k := by
      rw [dec_counter (by omega) (by omega)]
      omega
    obtain ⟨h1, h2, h3⟩ := ih s.dec hdec
    have hexec : execOps (Op.release :: t) s = execOps t s.dec := rfl
    have e1 : listens (Op.release :: t) = listens t := rfl
    have e2 : releases (Op.release :: t) = releases t + 1 := rfl
    rw [hexec, e1, e2]
    exact ⟨by omega, by omega, by omega⟩
  | @quit k t h ih =>
    intro s hs
    obtain ⟨h1, h2, h3⟩ := ih s.quit (by rw [quit_counter, hs])
    have hexec : execOps (Op.quit :: t) s = execOps t s.quit := rfl
    have e1 : listens (Op.quit :: t) = listens t := rfl
    have e2 : releases (Op.quit :: t) = releases t := rfl
    rw [hexec, e1, e2]
    exact ⟨by omega, by omega, by omega⟩
  | @pollListener k t snapshot h ih =>
    intro s hs
    obtain ⟨h1, h2, h3⟩ := ih s hs
    have hexec : execOps (Op.pollListener snapshot :: t) s = execOps t s := rfl
    have e1 : listens (Op.pollListener snapshot :: t) = listens t := rfl
    have e2 : releases (Op.pollListener snapshot :: t) = releases t := rfl
    rw [hexec, e1, e2]
    exact ⟨by omega, by omega, by omega⟩
  | @pollWait k t snapshot h ih =>
    intro s hs
    obtain ⟨h1, h2, h3⟩ := ih s hs
    have hexec : execOps (Op.pollWait snapshot :: t) s = execOps t s := rfl
    have e1 : listens (Op.pollWait snapshot :: t) = listens t := rfl
    have e2 : releases (Op.pollWait snapshot :: t) = releases t := rfl
    rw [hexec, e1, e2]
    exact ⟨by omega, by omega, by omega⟩
  | @mkWait k t h ih =>
    intro s hs
    obtain ⟨h1, h2, h3⟩ := ih s hs
    have hexec : execOps (Op.mkWait :: t) s = execOps t s := rfl
    have e1 : listens (Op.mkWait :: t) = listens t := rfl
    have e2 : releases (Op.mkWait :: t) = releases t := rfl
    rw [hexec, e1, e2]
    exact ⟨by omega, by omega, by omega⟩

lemma valid_append_left {b : List Op} :
    ∀ {k : Nat} {a : List Op}, Valid k (a ++ b) → Valid k a := by
  intro k a
  induction a generalizing k with
  | nil => intro h; exact Valid.nil (valid_lt h)
  | cons op rest ih =>
    intro h
    cases op with
    | listen => cases h with | listen h1 => exact Valid.listen (ih h1)
    | release => cases h with | release hk h1 => exact Valid.release hk (ih h1)
    | quit => cases h with | quit h1 => exact Valid.quit (ih h1)
    | pollListener snapshot =>
      cases h with | pollListener _ h1 => exact Valid.pollListener snapshot (ih h1)
    | pollWait snapshot =>
      cases h with | pollWait _ h1 => exact Valid.pollWait snapshot (ih h1)
    | mkWait => cases h with | mkWait h1 => exact Valid.mkWait (ih h1)

/-! ## The claims -/

/-- C2.  Counter accuracy: along any interleaving of `listen`, listener
drops, `quit`, polls, and `wait` in which each handle is released at most
once (`Valid`), the stored counter at every prefix equals the number of
`listen` calls minus the number of releases so far (in particular it never
underflows the `usize` subtraction), each release decreases it by exactly
1, and once all created handles have been released it is back to its
starting value. -/
theorem counter_accuracy (t : List Op) (s : Shutdown) (hv : Valid s.counter t) :
    (∀ pre suf : List Op, t = pre ++ suf →
        (execOps pre s).counter = s.counter + listens pre - releases pre
        ∧ releases pre ≤ s.counter + listens pre)
    ∧ (listens t = releases t → (execOps t s).counter = s.counter)
    ∧ (∀ pre suf : List Op, t = pre ++ Op.release :: suf →
        (execOps (pre ++ [Op.release]) s).counter + 1 = (execOps pre s).counter) := by
  refine ⟨?_, ?_, ?_⟩
  · intro pre suf hsplit
    subst hsplit
    obtain ⟨h1, h2, h3⟩ := counter_exec (valid_append_left hv) s rfl
    exact ⟨h1, h2⟩
  · intro hbal
    obtain ⟨h1, h2, h3⟩ := counter_exec hv s rfl
    omega
  · intro pre suf hsplit
    have hsplit2 : t = (pre ++ [Op.release]) ++ suf := by
      rw [hsplit, List.append_assoc]; rfl
    have hvpre : Valid s.counter pre := valid_append_left (hsplit ▸ hv)
    have hvpre2 : Valid s.counter (pre ++ [Op.release]) :=
      valid_append_left (hsplit2 ▸ hv)
    obtain ⟨h1, h2, h3⟩ := counter_exec hvpre s rfl
    obtain ⟨g1, g2, g3⟩ := counter_exec hvpre2 s rfl
    rw [listens_append, releases_append] at g1 g2
    have el : listens [Op.release] = 0 := rfl
    have er : releases [Op.release] = 1 := rfl
    rw [el, er] at g1 g2
    omega

/-- C2 witness: two listeners are created, shutdown is triggered, and both
listeners are dropped; the counter returns to its initial value 0. -/
theorem counter_accuracy_witness :
    (execOps [Op.listen, Op.listen, Op.quit, Op.release, Op.release] Shutdown.new).counter
      = Shutdown.new.counter :=
  (counter_accuracy [Op.listen, Op.listen, Op.quit, Op.release, Op.release] Shutdown.new
    (Valid.listen (Valid.listen (Valid.quit (Valid.release (by decide)
      (Valid.release (by decide) (Valid.nil (by decide)))))))).2.1 rfl

lemma dec_notify_done (s : Shutdown) :
    (s.dec).notify_done
      = if s.in_progress = true ∧ s.counter = 1 then s.notify_done + 1
        else s.notify_done := by
  simp only [Shutdown.dec]
  split
  · rename_i hb
    rw [if_pos (by simpa using hb)]
  · rename_i hb
    rw [if_neg (by simpa using hb)]

lemma quit_notify_done (s : Shutdown) :
    (s.quit).notify_done
      = if s.counter = 0 then s.notify_done + 1 else s.notify_done := by
  simp only [Shutdown.quit]
  split
  · rename_i hb
    rw [if_pos (by simpa using hb)]
  · rename_i hb
    rw [if_neg (by simpa using hb)]

/-- C1 counterexample.  A `Wait` future created on the fresh coordinator,
after `quit` (which signals the done channel, the counter being 0) and a
subsequent `listen`, polls `ready` even though the drained condition
`in_progress ∧ counter = 0` is false at that poll: the claimed
"Ready if and only if drained" fails in the only-if direction. -/
theorem wait_poll_ready_despite_not_drained :
    (Wait.poll (Shutdown.listen (Shutdown.quit Shutdown.new)).1
        (Shutdown.wait Shutdown.new).2).1 = PollRes.ready
    ∧ ¬ ((Shutdown.listen (Shutdown.quit Shutdown.new)).1.in_progress = true
          ∧ (Shutdown.listen (Shutdown.quit Shutdown.new)).1.counter = 0) := by
  decide

/-- C1 (amended).  Polling `Wait` returns `ready` iff the drained condition
`in_progress ∧ counter = 0` holds at that poll **or** the done channel has
been signaled since this `Wait`'s `Notified` subscription was created;
otherwise it returns `pending` after polling (subscribing to) the done
notification. -/
theorem wait_poll_ready_iff (s : Shutdown) (snapshot : Nat) :
    ((Wait.poll s snapshot).1 = PollRes.ready ↔
       ((s.in_progress = true ∧ s.counter = 0) ∨ snapshot < s.notify_done))
    ∧ (Wait.poll s snapshot = (PollRes.pending, true) ↔
       ¬ ((s.in_progress = true ∧ s.counter = 0) ∨ snapshot < s.notify_done)) := by
  by_cases h1 : s.in_progress = true ∧ s.counter = 0
  · have hb : (s.in_progress && s.counter == 0) = true := by simp [h1.1, h1.2]
    simp [Wait.poll, hb, h1]
  · have hb : (s.in_progress && s.counter == 0) = false := by
      rcases Bool.eq_false_or_eq_true s.in_progress with hip | hip
      · have : s.counter ≠ 0 := fun hc => h1 ⟨hip, hc⟩
        simp [this]
      · simp [hip]
    by_cases h2 : snapshot < s.notify_done
    · simp [Wait.poll, hb, notifiedPoll, h1, h2]
    · simp [Wait.poll, hb, notifiedPoll, h1, h2]

/-- C3.  `quit` is idempotent on the coordinator state: any number of
further `quit` calls after the first leaves the flag and the counter
exactly as a single call does (the extra calls only re-signal the
notification channels, re-waking subscribers). -/
theorem quit_idempotent (s : Shutdown) (n : Nat) :
    ((Shutdown.quit)^[n] s.quit).in_progress = (s.quit).in_progress
    ∧ ((Shutdown.quit)^[n] s.quit).counter = (s.quit).counter := by
  induction n with
  | zero => exact ⟨rfl, rfl⟩
  | succ m ih =>
    rw [Function.iterate_succ_apply']
    exact ⟨by rw [quit_in_progress, quit_in_progress], by rw [quit_counter, ih.2]⟩

/-- C4.  The shutdown flag is monotone: once `in_progress` is true, no
sequence of library operations (listen, listener drop, quit, polls, wait
creation) ever resets it, so every later `is_in_progress` read returns
true. -/
theorem in_progress_monotone (s : Shutdown) (t : List Op)
    (h : s.in_progress = true) :
    (execOps t s).in_progress = true
    ∧ ShutdownListener.is_in_progress (execOps t s) = true :=
  ⟨execOps_in_progress t h, execOps_in_progress t h⟩

/-- C4 witness: after `quit`, a listen/release/wait sequence leaves the
flag set. -/
theorem in_progress_monotone_witness :
    (execOps [Op.listen, Op.release, Op.mkWait] (Shutdown.quit Shutdown.new)).in_progress = true
    ∧ ShutdownListener.is_in_progress
        (execOps [Op.listen, Op.release, Op.mkWait] (Shutdown.quit Shutdown.new)) = true :=
  in_progress_monotone (Shutdown.quit Shutdown.new) [Op.listen, Op.release, Op.mkWait]
    (by decide)

/-- C5.  A listener created while `in_progress` is already true returns
`ready` on its very first poll through the eager flag check, without
polling (hence without subscribing to) the shutdown notification. -/
theorem post_shutdown_listen (s : Shutdown) (h : s.in_progress = true) :
    ShutdownListener.poll (s.listen).1 (s.listen).2 = (PollRes.ready, false) := by
  have hip : ((s.listen).1).in_progress = true := h
  simp [ShutdownListener.poll, ShutdownListener.is_in_progress, hip]

/-- C5 witness: a listener created right after `quit` on the fresh
coordinator is immediately ready. -/
theorem post_shutdown_listen_witness :
    ShutdownListener.poll ((Shutdown.quit Shutdown.new).listen).1
      ((Shutdown.quit Shutdown.new).listen).2 = (PollRes.ready, false) :=
  post_shutdown_listen (Shutdown.quit Shutdown.new) (by decide)

/-- C6.  Dropping a listener decrements the counter by exactly 1 (whenever
a handle is live, i.e. the counter is a positive `usize` value), and it
signals the done channel iff the flag is set and the decrement took the
counter from 1 to 0; `quit` signals the done channel iff the counter it
reads after setting the flag is 0. -/
theorem release_and_quit_signal_iff (s : Shutdown) :
    (1 ≤ s.counter → s.counter < USIZE → (s.dec).counter = s.counter - 1)
    ∧ ((s.dec).notify_done = s.notify_done + 1 ↔ (s.in_progress = true ∧ s.counter = 1))
    ∧ ((s.dec).notify_done = s.notify_done ↔ ¬ (s.in_progress = true ∧ s.counter = 1))
    ∧ ((s.quit).notify_done = s.notify_done + 1 ↔ s.counter = 0)
    ∧ ((s.quit).notify_done = s.notify_done ↔ s.counter ≠ 0) := by
  refine ⟨fun h1 h2 => dec_counter h1 h2, ?_, ?_, ?_, ?_⟩
  · rw [dec_notify_done]
    by_cases h : s.in_progress = true ∧ s.counter = 1
    · simp [h]
    · simp [h]
  · rw [dec_notify_done]
    by_cases h : s.in_progress = true ∧ s.counter = 1
    · simp [h]
    · simp [h]
  · rw [quit_notify_done]
    by_cases h : s.counter = 0
    · simp [h]
    · simp [h]
  · rw [quit_notify_done]
    by_cases h : s.counter = 0
    · simp [h]
    · simp [h]

/-- C6 witness: on a coordinator with the flag set and one live listener,
the drop decrements 1 → 0 and signals the done channel. -/
theorem release_and_quit_signal_iff_witness :
    ((Shutdown.mk true 1 1 0).dec).counter = (Shutdown.mk true 1 1 0).counter - 1
    ∧ ((Shutdown.mk true 1 1 0).dec).notify_done = (Shutdown.mk true 1 1 0).notify_done + 1 :=
  ⟨(release_and_quit_signal_iff (Shutdown.mk true 1 1 0)).1 (by decide) (by decide),
   ((release_and_quit_signal_iff (Shutdown.mk true 1 1 0)).2.1).mpr (by decide)⟩

/-- C7.  Listener resolution is stable: if a poll of a listener in a state
reachable from the fresh coordinator returned `ready`, then after any
further operations every poll of the same listener again returns `ready`,
via the eager `in_progress` check and without polling (re-subscribing to)
the shutdown notification. -/
theorem listener_ready_stable (t u : List Op) (snapshot : Nat)
    (h : (ShutdownListener.poll (execOps t Shutdown.new) snapshot).1 = PollRes.ready) :
    ShutdownListener.poll (execOps u (execOps t Shutdown.new)) snapshot
      = (PollRes.ready, false) := by
  have hinv : ShutdownInv (execOps t Shutdown.new) :=
    execOps_inv t (by intro h0; simp [Shutdown.new] at h0)
  have hip : (execOps t Shutdown.new).in_progress = true := by
    rcases Bool.eq_false_or_eq_true (execOps t Shutdown.new).in_progress with htr | hf
    · exact htr
    · exfalso
      rw [ShutdownListener.poll] at h
      rw [if_neg (by simp [ShutdownListener.is_in_progress, hf])] at h
      simp only [notifiedPoll] at h
      split at h
      · rename_i hlt
        exact absurd (hinv (by omega)) (by simp [hf])
      · simp at h
  have hip2 : (execOps u (execOps t Shutdown.new)).in_progress = true :=
    execOps_in_progress u hip
  simp [ShutdownListener.poll, ShutdownListener.is_in_progress, hip2]

/-- C7 witness: a listener polled ready after `quit` stays ready. -/
theorem listener_ready_stable_witness :
    ShutdownListener.poll (execOps [] (execOps [Op.quit] Shutdown.new)) 0
      = (PollRes.ready, false) :=
  listener_ready_stable [Op.quit] [] 0 (by decide)

/-- C9.  Frame properties: `quit` never modifies the counter; `listen` and
listener drops never modify the flag; creating a `Wait`, polling it, or
dropping it before resolution (it has no drop glue) modifies no
coordinator state at all. -/
theorem frame_properties (s : Shutdown) :
    (s.quit).counter = s.counter
    ∧ ((s.listen).1).in_progress = s.in_progress
    ∧ (s.dec).in_progress = s.in_progress
    ∧ (s.wait).1 = s
    ∧ (∀ snapshot : Nat, applyOp s (Op.pollWait snapshot) = s)
    ∧ applyOp s Op.mkWait = s :=
  ⟨quit_counter s, rfl, dec_in_progress s, rfl, fun _ => rfl, rfl⟩

/-- C10 counterexample.  After `quit` drained the fresh coordinator
(signaling the done channel) a new listener is created; a `Wait` future
created earlier still polls `ready` while that listener is live — the
claimed "any poll of any Wait returns Pending while the listener is live"
fails for already-notified subscriptions. -/
theorem wait_resolves_despite_new_listener :
    (Shutdown.listen (Shutdown.quit Shutdown.new)).1.in_progress = true
    ∧ (Shutdown.listen (Shutdown.quit Shutdown.new)).1.counter = 1
    ∧ (Wait.poll (Shutdown.listen (Shutdown.quit Shutdown.new)).1
        (Shutdown.wait Shutdown.new).2).1 = PollRes.ready := by
  decide

/-- C10 (amended).  Drain is not latched for subscriptions taken after the
last done signal: any poll of a `Wait` whose `Notified` subscription was
created at or after the last done notification returns `pending` (and
subscribes) while a listener is live, whatever the flag; such a `Wait`
resolves only through the current drained predicate or a later done
signal. -/
theorem wait_pending_while_listener_live (s : Shutdown) (snapshot : Nat)
    (h1 : s.notify_done ≤ snapshot) (h2 : s.counter ≠ 0) :
    Wait.poll s snapshot = (PollRes.pending, true) := by
  have hb : (s.in_progress && s.counter == 0) = false := by simp [h2]
  simp [Wait.poll, hb, notifiedPoll, Nat.not_lt.mpr h1]

/-- C10 witness: with one live listener after a drain, a freshly created
`Wait` polls pending. -/
theorem wait_pending_while_listener_live_witness :
    Wait.poll (Shutdown.listen (Shutdown.quit Shutdown.new)).1 1
      = (PollRes.pending, true) :=
  wait_pending_while_listener_live (Shutdown.listen (Shutdown.quit Shutdown.new)).1 1
    (by decide) (by decide)
